import Mathlib

/-!
Verification development for the TYViewer binary model pipeline.

The C++ sources are embedded shallowly:
* byte buffers are `List Nat` (each entry one byte, read modulo 256);
* machine floats are kept as their raw 32-bit little-endian patterns wherever
  only copying and structural equality matter, and float-valued tests
  (tolerance comparisons, the V flip) are abstracted into explicit function
  parameters, so every theorem below holds for every choice of those
  functions;
* fallible loaders return `Option`;
* `size_t` subtraction that can wrap is modelled with an explicit mod 2^64.
-/

/-! ## Byte reading primitives

Modelled from the spec: the Byte Reader component (util/bitconverter.h and
util/stringext.h are absent from the source tree) performs primitive
little-endian decoding of integers from a raw buffer at byte offsets plus
null-terminated string extraction.  Reads beyond the end of the buffer give
byte 0. -/

/-- Modelled from the spec: one byte of the buffer at offset `i`. -/
def readU8 (b : List Nat) (i : Nat) : Nat := (b.getD i 0) % 256

/-- Modelled from the spec: little-endian 16-bit read. -/
def readU16 (b : List Nat) (i : Nat) : Nat := readU8 b i + 256 * readU8 b (i + 1)

/-- Modelled from the spec: little-endian 32-bit read. -/
def readU32 (b : List Nat) (i : Nat) : Nat :=
  readU8 b i + 256 * readU8 b (i + 1) + 65536 * readU8 b (i + 2) + 16777216 * readU8 b (i + 3)

/-- Modelled from the spec: little-endian signed 32-bit read (two of every complement). -/
def readI32 (b : List Nat) (i : Nat) : Int :=
  let u := readU32 b i
  if u < 2147483648 then (u : Int) else (u : Int) - 4294967296

/-- Modelled from the spec: null-terminated string starting at `off`, at most `len` bytes. -/
def ntsLen (b : List Nat) (off len : Nat) : List Nat :=
  ((b.drop off).take len).takeWhile (fun c => c ≠ 0)

/-- Modelled from the spec: null-terminated string starting at `off`. -/
def ntsAt (b : List Nat) (off : Nat) : List Nat :=
  (b.drop off).takeWhile (fun c => c ≠ 0)

/-! ## Archive reader (loader/archive.cpp)

The header archive.h is absent from the source tree; the `File` record shape
and its defaulted fields are modelled from the spec data model
(`File{name, folder, size, offset, date}`, lookups keyed by the lowercased
name, absent lookups fail). -/

/-- ASCII lowercasing of one byte, mirroring the per-character std tolower
applied to archive keys. -/
def asciiLower (c : Nat) : Nat := if 65 ≤ c ∧ c ≤ 90 then c + 32 else c

/-- Lowercased name, as built by std transform over the query string. -/
def lowerStr (s : List Nat) : List Nat := s.map asciiLower

/-- Modelled from the spec: the archive `File` record `{name, folder, size, offset, date}`. -/
structure File where
  name : List Nat
  folder : Nat
  size : Nat
  offset : Nat
  date : Nat
deriving Repr, DecidableEq

/-- Modelled from the spec: a default-constructed `File`, used when the lookup
finds nothing; its stored size is zero so that absent keys fail. -/
def defaultFile : File := ⟨[], 0, 0, 0, 0⟩

/-- The archive file table: association list from lowercased key to entry,
first match wins (mirrors the map keyed by lowercased name). -/
def filesLookup (files : List (List Nat × File)) (key : List Nat) : Option File :=
  match files with
  | [] => none
  | (k, f) :: rest => if k = key then some f else filesLookup rest key

/-- Insertion `files[key] = file` into the table (overwrite on equal key). -/
def filesInsert (files : List (List Nat × File)) (key : List Nat) (f : File) :
    List (List Nat × File) :=
  match files with
  | [] => [(key, f)]
  | (k, g) :: rest => if k = key then (k, f) :: rest else (k, g) :: filesInsert rest key f

/-- Archive sub-format tag, as in the Archive version enumeration. -/
inductive ArchiveVersion where
  | RKV1
  | RKV2
  | UNKNOWN
deriving Repr, DecidableEq

/-- The 4-byte ASCII tag RKV2. -/
def rkv2Tag : List Nat := [82, 75, 86, 50]

/-- Archive identify: read the first 4 bytes (missing bytes of a short file
stay 0 in the read buffer); the RKV2 tag selects RKV2, everything else is
RKV1 by default. -/
def identify (bytes : List Nat) : ArchiveVersion :=
  if (bytes ++ [0, 0, 0, 0]).take 4 = rkv2Tag then ArchiveVersion.RKV2 else ArchiveVersion.RKV1

/-- One 64-byte RKV1 table record starting at `base`: name (32 bytes,
null-terminated) at +0, folder at +32, size at +36, offset at +44, date at +52. -/
def rkv1Record (bytes : List Nat) (base : Nat) : File :=
  ⟨ntsLen bytes base 32, readU32 bytes (base + 32), readU32 bytes (base + 36),
    readU32 bytes (base + 44), readU32 bytes (base + 52)⟩

/-- RKV1 table parse: trailer at end-of-file holds file and folder counts; the
table of 64-byte records precedes it; each record is stored under its
lowercased name. -/
def parseRKV1 (bytes : List Nat) : List (List Nat × File) :=
  let size := bytes.length
  let filecount := readU32 bytes (size - 8)
  let foldercount := readU32 bytes (size - 4)
  let tableStart := size - (8 + foldercount * 256 + filecount * 64)
  (List.range filecount).foldl
    (fun fs i =>
      let f := rkv1Record bytes (tableStart + i * 64)
      filesInsert fs (lowerStr f.name) f)
    []

/-- One 20-byte RKV2 info entry at `base`: name offset at +0, size at +8,
offset at +12; the name is read at the name block base plus the name offset. -/
def rkv2Record (bytes : List Nat) (nameOff base : Nat) : File :=
  ⟨ntsLen bytes (nameOff + readU32 bytes base) 256, 0, readU32 bytes (base + 8),
    readU32 bytes (base + 12), 0⟩

/-- RKV2 table parse: six header words after the magic; 20-byte entries read
linearly from the info offset; names indirected through the name block. -/
def parseRKV2 (bytes : List Nat) : List (List Nat × File) :=
  let filesCount := readU32 bytes 4
  let infoOff := readU32 bytes 20
  let nameOff := filesCount * 20 + infoOff
  (List.range filesCount).foldl
    (fun fs i =>
      let f := rkv2Record bytes nameOff (infoOff + i * 20)
      filesInsert fs (lowerStr f.name) f)
    []

/-- State of an Archive object after load: identified version and file table.
A fresh Archive starts with an empty table. -/
structure ArchiveState where
  version : ArchiveVersion
  files : List (List Nat × File)
deriving Repr, DecidableEq

/-- Archive load on a fresh archive.  The filesystem read is `none` for an
unreadable path, otherwise the file bytes.  Failure cases leave the table
empty; the identify result routes to the RKV1 or RKV2 table parser and load
then reports success. -/
def archiveLoad (fsRead : Option (List Nat)) : ArchiveState × Bool :=
  match fsRead with
  | none => (⟨ArchiveVersion.UNKNOWN, []⟩, false)
  | some bytes =>
    if bytes.length = 0 then (⟨ArchiveVersion.UNKNOWN, []⟩, false)
    else
      match identify bytes with
      | ArchiveVersion.RKV1 => (⟨ArchiveVersion.RKV1, parseRKV1 bytes⟩, true)
      | ArchiveVersion.RKV2 => (⟨ArchiveVersion.RKV2, parseRKV2 bytes⟩, true)
      | ArchiveVersion.UNKNOWN => (⟨ArchiveVersion.UNKNOWN, []⟩, false)

/-- Archive getFile: lowercase the query and look it up; the out-parameter is
written only when found, so the result is the optional entry. -/
def getFile (files : List (List Nat × File)) (name : List Nat) : Option File :=
  filesLookup files (lowerStr name)

/-- Archive getFileData: lowercase the query, look it up into a
default-constructed `File`, and if the stored size is non-zero reopen the
archive stream and read exactly `size` bytes at `offset` (bytes past the end
of the archive stay 0, as the output vector is zero-initialized).  Result
`none` means the call returned false without touching the output vector. -/
def getFileData (content : List Nat) (files : List (List Nat × File)) (name : List Nat) :
    Option (List Nat) :=
  let f := (filesLookup files (lowerStr name)).getD defaultFile
  if f.size ≠ 0 then some (((content.drop f.offset) ++ List.replicate f.size 0).take f.size)
  else none

/-- C7: Archive load fails exactly when the path is unreadable or the file is
empty (the unrecognized-signature case of the claim never occurs, because
identify defaults every non-RKV2 input to RKV1, so the equivalence still
holds); on failure the file table is left empty; the RKV2 tag in the first
four bytes selects the RKV2 parse and every other readable non-empty input is
parsed as RKV1. -/
theorem archive_load_contract (fsRead : Option (List Nat)) :
    ((archiveLoad fsRead).2 = false ↔ fsRead = none ∨ fsRead = some []) ∧
    ((archiveLoad fsRead).2 = false → (archiveLoad fsRead).1.files = []) ∧
    (∀ bytes : List Nat, fsRead = some bytes → bytes ≠ [] →
      (identify bytes = ArchiveVersion.RKV2 ↔ (bytes ++ [0, 0, 0, 0]).take 4 = rkv2Tag) ∧
      (identify bytes = ArchiveVersion.RKV2 →
        (archiveLoad fsRead).1 = ⟨ArchiveVersion.RKV2, parseRKV2 bytes⟩ ∧
          (archiveLoad fsRead).2 = true) ∧
      (identify bytes = ArchiveVersion.RKV1 →
        (archiveLoad fsRead).1 = ⟨ArchiveVersion.RKV1, parseRKV1 bytes⟩ ∧
          (archiveLoad fsRead).2 = true) ∧
      (identify bytes = ArchiveVersion.RKV1 ∨ identify bytes = ArchiveVersion.RKV2)) := by
  refine ⟨?_, ?_, ?_⟩
  · cases fsRead with
    | none => simp [archiveLoad]
    | some bytes =>
      by_cases h : bytes.length = 0
      · simp [archiveLoad, h, List.length_eq_zero.mp h]
      · have hne : bytes ≠ [] := fun hb => h (by simp [hb])
        simp only [archiveLoad, h, if_false]
        unfold identify
        by_cases ht : (bytes ++ [0, 0, 0, 0]).take 4 = rkv2Tag <;>
          simp [ht, hne]
  · cases fsRead with
    | none => intro _; simp [archiveLoad]
    | some bytes =>
      by_cases h : bytes.length = 0
      · intro _; simp [archiveLoad, h]
      · simp only [archiveLoad, h, if_false]
        unfold identify
        by_cases ht : (bytes ++ [0, 0, 0, 0]).take 4 = rkv2Tag <;> simp [ht]
  · intro bytes hb hne
    subst hb
    have h : bytes.length ≠ 0 := fun h0 => hne (List.length_eq_zero.mp h0)
    refine ⟨?_, ?_, ?_, ?_⟩
    · unfold identify
      by_cases ht : (bytes ++ [0, 0, 0, 0]).take 4 = rkv2Tag <;> simp [ht]
    · intro hv; simp [archiveLoad, h, hv]
    · intro hv; simp [archiveLoad, h, hv]
    · unfold identify
      by_cases ht : (bytes ++ [0, 0, 0, 0]).take 4 = rkv2Tag <;> simp [ht]

/-- Witness for C7: concrete instantiations of the load contract, on an
RKV2-tagged byte list and on an unreadable path. -/
theorem archive_load_contract_witness :
    (archiveLoad (some [82, 75, 86, 50, 9])).1 =
        ⟨ArchiveVersion.RKV2, parseRKV2 [82, 75, 86, 50, 9]⟩ ∧
      (archiveLoad (none : Option (List Nat))).2 = false := by
  constructor
  · exact (((archive_load_contract (some [82, 75, 86, 50, 9])).2.2 [82, 75, 86, 50, 9] rfl
      (by decide)).2.1 (by decide)).1
  · exact (archive_load_contract (none : Option (List Nat))).1.mpr (Or.inl rfl)

/-- C9: archive lookups are case-insensitive: two query names that agree after
ASCII lowercasing give the same getFile result (same found flag and entry)
and the same getFileData bytes, for every loaded file table and archive
content. -/
theorem archive_lookup_case_insensitive (files : List (List Nat × File)) (content : List Nat)
    (n1 n2 : List Nat) (h : lowerStr n1 = lowerStr n2) :
    getFile files n1 = getFile files n2 ∧
      getFileData content files n1 = getFileData content files n2 := by
  unfold getFile getFileData
  rw [h]
  exact ⟨rfl, rfl⟩

/-- Witness for C9: the names Foo.MDL and foo.mdl (as ASCII byte lists) get
identical results on a concrete table in which foo.mdl is present. -/
theorem archive_lookup_case_insensitive_witness :
    lowerStr [70, 111, 111, 46, 77, 68, 76] = lowerStr [102, 111, 111, 46, 109, 100, 108] ∧
      getFile [([102, 111, 111, 46, 109, 100, 108], ⟨[102, 111, 111, 46, 109, 100, 108], 0, 3, 1, 0⟩)]
          [70, 111, 111, 46, 77, 68, 76] =
        getFile [([102, 111, 111, 46, 109, 100, 108], ⟨[102, 111, 111, 46, 109, 100, 108], 0, 3, 1, 0⟩)]
          [102, 111, 111, 46, 109, 100, 108] ∧
      getFileData [7, 8, 9, 10] [([102, 111, 111, 46, 109, 100, 108], ⟨[102, 111, 111, 46, 109, 100, 108], 0, 3, 1, 0⟩)]
          [70, 111, 111, 46, 77, 68, 76] =
        getFileData [7, 8, 9, 10] [([102, 111, 111, 46, 109, 100, 108], ⟨[102, 111, 111, 46, 109, 100, 108], 0, 3, 1, 0⟩)]
          [102, 111, 111, 46, 109, 100, 108] := by
  refine ⟨by decide, ?_, ?_⟩
  · exact (archive_lookup_case_insensitive _ [7, 8, 9, 10] _ _ (by decide)).1
  · exact (archive_lookup_case_insensitive _ [7, 8, 9, 10] _ _ (by decide)).2

/-- C10: getFileData decides success from the stored size of the looked-up
entry, not from key presence: a key present in the table with stored size 0
returns false with the output vector untouched, exactly like an absent key. -/
theorem getFileData_zero_size_like_absent (content : List Nat)
    (files : List (List Nat × File)) (name absent : List Nat) (f : File)
    (hf : filesLookup files (lowerStr name) = some f) (hsz : f.size = 0)
    (habs : filesLookup files (lowerStr absent) = none) :
    getFileData content files name = none ∧ getFileData content files absent = none := by
  constructor
  · unfold getFileData
    rw [hf]
    simp [hsz]
  · unfold getFileData
    rw [habs]
    simp [defaultFile]

/-- Witness for C10: a concrete table holding the key zero.bin with stored
size 0; looking it up fails just like the absent key gone.bin. -/
theorem getFileData_zero_size_like_absent_witness :
    getFileData [1, 2, 3] [([122, 101, 114, 111], ⟨[122, 101, 114, 111], 0, 0, 1, 0⟩)]
        [122, 101, 114, 111] = none ∧
      getFileData [1, 2, 3] [([122, 101, 114, 111], ⟨[122, 101, 114, 111], 0, 0, 1, 0⟩)]
        [103, 111, 110, 101] = none :=
  getFileData_zero_size_like_absent [1, 2, 3] _ [122, 101, 114, 111] [103, 111, 110, 101]
    ⟨[122, 101, 114, 111], 0, 0, 1, 0⟩ (by decide) rfl (by decide)

/-! ## Strip topology reconstructor (content.inl, Model loader)

The reconstructor works on decoded vertices; the only vertex operations it
performs are the two float tolerance tests isSamePosition and isSameUv
(per-axis absolute difference below 1e-5).  The vertex type and the two
tests are therefore parameters `P` (position) and `U` (UV) here; every
theorem holds for every choice of them. -/

/-- Tolerance test between the vertices at positions `i` and `j` of the list
(out-of-range accesses never happen on the guarded paths and count as
false). -/
def pairAt {V : Type} (P : V → V → Bool) (vs : List V) (i j : Nat) : Bool :=
  match vs[i]?, vs[j]? with
  | some a, some b => P a b
  | _, _ => false

/-- Loop body of deriveStripRanges from content.inl: scan consecutive
duplicate-position pairs, merging back-to-back duplicate pairs into one
2-vertex connector; on loop exit the final open range is pushed.  The fuel
argument only bounds the recursion: the wrapper passes `count + 1`, which
strictly dominates the number of loop steps because `i` increases by at
least one each step, so the fuel-zero branch (which duplicates the loop
exit) is never reached. -/
def deriveAux {V : Type} (P : V → V → Bool) (vs : List V) (count : Nat) :
    Nat → Nat → Nat → List (Nat × Nat) → List (Nat × Nat)
  | 0, startIndex, _, ranges =>
    if startIndex < count then ranges ++ [(startIndex, count - startIndex)] else ranges
  | fuel + 1, startIndex, i, ranges =>
    if i + 1 < count then
      if pairAt P vs i (i + 1) then
        let ranges1 :=
          if startIndex < i + 1 then ranges ++ [(startIndex, i - startIndex + 1)] else ranges
        if i + 3 < count ∧ pairAt P vs (i + 2) (i + 3) = true then
          let s2 :=
            if i + 2 + 1 < count ∧ pairAt P vs (i + 2) (i + 2 + 1) = true then i + 2 + 1
            else i + 2
          deriveAux P vs count fuel s2 s2 ranges1
        else
          deriveAux P vs count fuel (i + 1) (i + 1) ranges1
      else
        deriveAux P vs count fuel startIndex (i + 1) ranges
    else
      if startIndex < count then ranges ++ [(startIndex, count - startIndex)] else ranges

/-- deriveStripRanges of content.inl: derive strip `(start, length)` ranges
from duplicate-position connectors in the vertex data. -/
def deriveStripRanges {V : Type} (P : V → V → Bool) (vs : List V) : List (Nat × Nat) :=
  deriveAux P vs vs.length (vs.length + 1) 0 0 []

/-- Accumulated output of the reconstructor: emitted index list plus the four
diagnostic counters threaded through appendTriangleStripIndices. -/
structure StripState where
  indices : List Nat
  degenerateCount : Nat
  totalTriangleCount : Nat
  degenerateUvMismatch : Nat
  stripBreaks : Nat
deriving Repr, DecidableEq

/-- appendTriangleStripIndices of content.inl: expand the vertex range
`[startIndex, startIndex + count)` as a triangle strip with alternating
winding.  Triangles with two coincident-position vertices update the
degenerate counters (and the UV-mismatch diagnostic), and the index triple
is then pushed unconditionally. -/
def appendTriangleStripIndices {V : Type} (P U : V → V → Bool) (vs : List V)
    (startIndex count : Nat) (st : StripState) : StripState :=
  if count < 3 ∨ vs.length < startIndex + count then st
  else
    (List.range (count - 2)).foldl
      (fun s i =>
        let i0 := startIndex + i
        let i1 := startIndex + i + 1
        let i2 := startIndex + i + 2
        let deg01 := pairAt P vs i0 i1
        let deg12 := pairAt P vs i1 i2
        let deg02 := pairAt P vs i0 i2
        let s1 :=
          if deg01 || deg12 || deg02 then
            let s2 := { s with degenerateCount := s.degenerateCount + 1 }
            if (deg01 && !pairAt U vs i0 i1) || (deg12 && !pairAt U vs i1 i2) ||
                (deg02 && !pairAt U vs i0 i2) then
              { { s2 with degenerateUvMismatch := s2.degenerateUvMismatch + 1 } with
                  stripBreaks := s2.stripBreaks + 1 }
            else s2
          else s
        if i % 2 = 0 then { s1 with indices := s1.indices ++ [i0, i1, i2] }
        else { s1 with indices := s1.indices ++ [i1, i0, i2] })
      { st with totalTriangleCount := st.totalTriangleCount + (count - 2) }

/-- Fold of appendTriangleStripIndices over the derived ranges of length at
least 3, as content.inl does on the fallback path. -/
def stripDerivedFold {V : Type} (P U : V → V → Bool) (vs : List V) : StripState :=
  (deriveStripRanges P vs).foldl
    (fun s r => if 3 ≤ r.2 then appendTriangleStripIndices P U vs r.1 r.2 s else s)
    ⟨[], 0, 0, 0, 0⟩

/-- Declared strip length sum plus 2-vertex connectors between strips. -/
def stripD2 (counts : List Nat) : Nat :=
  counts.sum + (if 0 < counts.length then (counts.length - 1) * 2 else 0)

/-- Declared strip length sum plus 1-vertex connectors between strips. -/
def stripD1 (counts : List Nat) : Nat :=
  counts.sum + (if 0 < counts.length then counts.length - 1 else 0)

/-- Per-strip fold of content.inl on the declared-counts path: append each
strip of length at least 3 at the running cursor, then advance the cursor by
the strip length plus 0, 2 or 1 extra vertices according to which accounting
convention matched (checked in that order). -/
def stripCountFold {V : Type} (P U : V → V → Bool) (vs : List V) (counts : List Nat)
    (n : Nat) : StripState :=
  (counts.foldl
    (fun acc c =>
      (if 3 ≤ c then appendTriangleStripIndices P U vs acc.2 c acc.1 else acc.1,
        acc.2 +
          (if counts.sum = n then c
            else if stripD2 counts = n then c + 2
            else if ¬stripD2 counts = n ∧ stripD1 counts = n then c + 1
            else c)))
    (⟨[], 0, 0, 0, 0⟩, 0)).1

/-- The strip index generation block of the Model loader in content.inl:
with declared strip counts, check the three accounting conventions and fall
back to derived ranges when none aligns (and derivation yields ranges);
without declared counts, use derived ranges, or the whole vertex list when
derivation yields nothing. -/
def stripIndexGen {V : Type} (P U : V → V → Bool) (vs : List V) (counts : List Nat) :
    StripState :=
  if counts = [] then
    if deriveStripRanges P vs ≠ [] then stripDerivedFold P U vs
    else appendTriangleStripIndices P U vs 0 vs.length ⟨[], 0, 0, 0, 0⟩
  else
    if ¬(counts.sum = vs.length ∨ stripD2 counts = vs.length ∨
          (¬stripD2 counts = vs.length ∧ stripD1 counts = vs.length)) ∧
        deriveStripRanges P vs ≠ [] then
      stripDerivedFold P U vs
    else
      stripCountFold P U vs counts vs.length

/-- Spec-side emission for C4, stated from the claim: per declared strip,
append it at the cursor and advance by the strip length plus a fixed number
of extra connector vertices. -/
def stripEmitWithGap {V : Type} (P U : V → V → Bool) (vs : List V) (counts : List Nat)
    (extra : Nat) : StripState :=
  (counts.foldl
    (fun acc c =>
      (if 3 ≤ c then appendTriangleStripIndices P U vs acc.2 c acc.1 else acc.1,
        acc.2 + (c + extra)))
    (⟨[], 0, 0, 0, 0⟩, 0)).1

/-- The derivation loop always produces at least one range once the running
start index is inside the vertex range, because every transfer keeps the
start index below the count and the exit path then pushes the final open
range. -/
theorem deriveAux_ne_nil {V : Type} (P : V → V → Bool) (vs : List V) (count : Nat) :
    ∀ fuel i startIndex ranges, startIndex < count →
      deriveAux P vs count fuel startIndex i ranges ≠ [] := by
  intro fuel
  induction fuel with
  | zero =>
    intro i s r hs
    simp only [deriveAux, if_pos hs]
    simp
  | succ f ih =>
    intro i s r hs
    simp only [deriveAux]
    by_cases h1 : i + 1 < count
    · rw [if_pos h1]
      by_cases hp : pairAt P vs i (i + 1)
      · rw [if_pos hp]
        by_cases h2 : i + 3 < count ∧ pairAt P vs (i + 2) (i + 3) = true
        · rw [if_pos h2]
          by_cases h3 : i + 2 + 1 < count ∧ pairAt P vs (i + 2) (i + 2 + 1) = true
          · rw [if_pos h3]
            exact ih _ _ _ h3.1
          · rw [if_neg h3]
            exact ih _ _ _ (by omega)
        · rw [if_neg h2]
          exact ih _ _ _ h1
      · rw [if_neg hp]
        exact ih _ _ _ hs
    · rw [if_neg h1, if_pos hs]
      simp

/-- On a non-empty vertex list the derivation always yields a range. -/
theorem deriveStripRanges_ne_nil {V : Type} (P : V → V → Bool) (vs : List V)
    (h : vs ≠ []) : deriveStripRanges P vs ≠ [] := by
  have : 0 < vs.length := List.length_pos.mpr h
  exact deriveAux_ne_nil P vs vs.length (vs.length + 1) 0 0 [] this

/-- C4: with declared strip counts present, the reconstructor matches the
declared lengths against the total vertex count under the three accounting
conventions, advancing the inter-strip cursor by 0, 2 or 1 extra vertices
for the matching convention, and when none matches it falls back to the
ranges derived from duplicate-position connectors. -/
theorem strip_count_conventions {V : Type} (P U : V → V → Bool) (vs : List V)
    (counts : List Nat) (hne : counts ≠ []) :
    (counts.sum = vs.length →
        stripIndexGen P U vs counts = stripEmitWithGap P U vs counts 0) ∧
      (counts.sum ≠ vs.length → stripD2 counts = vs.length →
        stripIndexGen P U vs counts = stripEmitWithGap P U vs counts 2) ∧
      (counts.sum ≠ vs.length → stripD2 counts ≠ vs.length → stripD1 counts = vs.length →
        stripIndexGen P U vs counts = stripEmitWithGap P U vs counts 1) ∧
      (counts.sum ≠ vs.length → stripD2 counts ≠ vs.length → stripD1 counts ≠ vs.length →
        vs ≠ [] → stripIndexGen P U vs counts = stripDerivedFold P U vs) := by
  refine ⟨?_, ?_, ?_, ?_⟩
  · intro hinc
    unfold stripIndexGen
    rw [if_neg hne, if_neg (by simp [hinc])]
    unfold stripCountFold stripEmitWithGap
    simp [hinc]
  · intro hsum hd2
    unfold stripIndexGen
    rw [if_neg hne, if_neg (by simp [hd2])]
    unfold stripCountFold stripEmitWithGap
    simp [hsum, hd2]
  · intro hsum hd2 hd1
    unfold stripIndexGen
    rw [if_neg hne, if_neg (by simp [hd1, hd2])]
    unfold stripCountFold stripEmitWithGap
    simp [hsum, hd2, hd1]
  · intro hsum hd2 hd1 hvs
    unfold stripIndexGen
    rw [if_neg hne, if_pos ⟨by simp [hsum, hd2, hd1], deriveStripRanges_ne_nil P vs hvs⟩]

/-- Witness for C4: a concrete 8-vertex mesh whose declared counts [3, 3]
match the 2-vertex-connector convention, so the cursor advance is +2 extra. -/
theorem strip_count_conventions_witness :
    stripIndexGen (fun a b : Nat × Nat => a.1 == b.1) (fun a b : Nat × Nat => a.2 == b.2)
        [(0, 0), (1, 1), (2, 2), (3, 3), (4, 4), (5, 5), (6, 6), (7, 7)] [3, 3] =
      stripEmitWithGap (fun a b : Nat × Nat => a.1 == b.1) (fun a b : Nat × Nat => a.2 == b.2)
        [(0, 0), (1, 1), (2, 2), (3, 3), (4, 4), (5, 5), (6, 6), (7, 7)] [3, 3] 2 :=
  (strip_count_conventions _ _ _ _ (by decide)).2.1 (by decide) (by decide)

/-- Position-identifier equality used to instantiate the tolerance test on
concrete inputs: two vertices coincide exactly when their first tag agrees. -/
def eqPos : Nat × Nat → Nat × Nat → Bool := fun a b => a.1 == b.1

/-- UV-identifier equality used to instantiate the tolerance test. -/
def eqUv : Nat × Nat → Nat × Nat → Bool := fun a b => a.2 == b.2

/-- The strip [A, B, C, C, D, E] with C duplicated as a connector: tags 0..4
for positions, matching tags for UVs. -/
def c1Vertices : List (Nat × Nat) := [(0, 0), (1, 1), (2, 2), (2, 2), (3, 3), (4, 4)]

/-- C1: the reconstructor counts degenerate connector triangles but does not
exclude them.  On the strip [A, B, C, C, D, E] processed as one declared
strip of 6 (the counts-include-connectors convention), the emitted index
list contains the triples (2, 1, 3) and (2, 3, 4), each referencing both
coincident C vertices, while the degenerate counter reports 2 triangles as
skipped; the comment and the log in content.inl say such triangles are
skipped.  On the derived-ranges path (no declared counts) the same strip is
split at the connector and the output is clean. -/
theorem strip_degenerate_triangles_emitted_not_excluded :
    (stripIndexGen eqPos eqUv c1Vertices [6]).indices =
        [0, 1, 2, 2, 1, 3, 2, 3, 4, 4, 3, 5] ∧
      (stripIndexGen eqPos eqUv c1Vertices [6]).degenerateCount = 2 ∧
      pairAt eqPos c1Vertices 2 3 = true ∧
      (stripIndexGen eqPos eqUv c1Vertices []).indices = [0, 1, 2, 3, 4, 5] := by
  decide

/-! ## Generation-1 model triangulation (content.inl, TY1 branch)

The TY1 branch of the Model loader concatenates the vertices of every
segment of a mesh and emits, per segment, the triples
(triangleIndex, triangleIndex + 2, triangleIndex + 1) while triangleIndex
advances by one per triple and by an extra two at each segment boundary.
The C++ loop bound is the size_t value vertexCount - 2, which wraps to
2^64 - 1 or 2^64 - 2 for segments of fewer than two vertices; the 32-bit
loop counter then never reaches the bound, so the C++ loop does not
terminate.  The embedding enumerates the loop iterations in order, which
coincides with the code for vertexCount at least 2 and is enough to
witness the out-of-range indices emitted by the first iterations
otherwise. -/

/-- Concatenation of the images of a list, used for the pushed index triples
and the per-segment vertex concatenation. -/
def catMap {α β : Type} (f : α → List β) : List α → List β
  | [] => []
  | a :: l => f a ++ catMap f l

/-- The size_t value of vertexCount - 2 (64-bit wrap-around subtraction). -/
def sizeTSub2 (n : Nat) : Nat := (n + 18446744073709551614) % 18446744073709551616

/-- Index emission of the TY1 branch over the list of segment vertex counts,
with the running triangleIndex cursor. -/
def ty1MeshIndicesAux : Nat → List Nat → List Nat
  | _, [] => []
  | triangleIndex, n :: rest =>
    catMap (fun t => [triangleIndex + t, triangleIndex + t + 2, triangleIndex + t + 1])
        (List.range (sizeTSub2 n)) ++
      ty1MeshIndicesAux (triangleIndex + sizeTSub2 n + 2) rest

/-- Index buffer built by the TY1 branch for one mesh from its segment
vertex counts. -/
def ty1MeshIndices (segSizes : List Nat) : List Nat := ty1MeshIndicesAux 0 segSizes

/-- The TY1 branch of the Model loader: one render mesh per (subobject, mesh)
pair, holding the concatenated segment vertices and the emitted index
buffer. -/
def ty1RenderMeshes {α : Type} (subobjects : List (List (List (List α)))) :
    List (List α × List Nat) :=
  catMap (fun subobj =>
      subobj.map (fun mesh => (catMap id mesh, ty1MeshIndices (mesh.map List.length))))
    subobjects

/-- Spec-side emission for C5, stated from the claim: triples
(0 + t, 2 + t, 1 + t) relative to the running cursor for t in [0, n - 2),
cursor advanced by one per triple and by an extra two at each segment
boundary, hence by n per segment. -/
def specGen1Aux : Nat → List Nat → List Nat
  | _, [] => []
  | base, n :: rest =>
    catMap (fun t => [base + t, base + t + 2, base + t + 1]) (List.range (n - 2)) ++
      specGen1Aux (base + n) rest

/-- Spec-side index list for a mesh, starting at cursor 0. -/
def specGen1Indices (segSizes : List Nat) : List Nat := specGen1Aux 0 segSizes

/-- Membership transports through catMap. -/
theorem mem_catMap {α β : Type} (f : α → List β) {x : β} {a : α} {l : List α}
    (ha : a ∈ l) (hx : x ∈ f a) : x ∈ catMap f l := by
  induction l with
  | nil => cases ha
  | cons b t ih =>
    rcases List.mem_cons.mp ha with h | h
    · subst h
      exact List.mem_append.mpr (Or.inl hx)
    · exact List.mem_append.mpr (Or.inr (ih h))

/-- For segment sizes in the normal range the wrapped bound is the plain
subtraction. -/
theorem sizeTSub2_eq (n : Nat) (h2 : 2 ≤ n) (h32 : n < 4294967296) :
    sizeTSub2 n = n - 2 := by
  unfold sizeTSub2
  omega

/-- The wrapped bound of a 1-vertex segment is positive, so the loop body
runs. -/
theorem sizeTSub2_one_pos : 0 < sizeTSub2 1 := by
  unfold sizeTSub2
  omega

/-- C2: the render-mesh index invariant fails on a generation-1 model with a
segment of fewer than 2 vertices.  A model with one subobject, one mesh and
one segment holding a single vertex produces a render mesh whose index
buffer contains the index 2 while the vertex array has length 1, because
the loop bound vertexCount - 2 is computed in size_t and wraps.  The mesh
accessor documentation in graphics/mesh.h states that indices are always
into the vertex array, so the claimed invariant is the intent and the
wrap-around is the defect. -/
theorem gen1_short_segment_breaks_index_invariant :
    ty1RenderMeshes [[[[5]]]] = [([5], ty1MeshIndices [1])] ∧
      2 ∈ ty1MeshIndices [1] ∧
      ([5] : List Nat).length = 1 ∧ ¬2 < ([5] : List Nat).length := by
  refine ⟨rfl, ?_, rfl, by decide⟩
  show 2 ∈ ty1MeshIndicesAux 0 [1]
  simp only [ty1MeshIndicesAux, List.append_nil]
  exact mem_catMap _ (List.mem_range.mpr sizeTSub2_one_pos) (by simp)

/-- Equality of code emission and spec emission for any cursor, for segment
sizes in the normal range. -/
theorem ty1MeshIndicesAux_spec (segSizes : List Nat)
    (h : ∀ n ∈ segSizes, 2 ≤ n ∧ n < 4294967296) :
    ∀ base, ty1MeshIndicesAux base segSizes = specGen1Aux base segSizes := by
  induction segSizes with
  | nil => intro base; rfl
  | cons n rest ih =>
    intro base
    have hn := h n (by simp)
    have hrest : ∀ m ∈ rest, 2 ≤ m ∧ m < 4294967296 := fun m hm => h m (by simp [hm])
    simp only [ty1MeshIndicesAux, specGen1Aux]
    rw [sizeTSub2_eq n hn.1 hn.2]
    have hb : base + (n - 2) + 2 = base + n := by omega
    rw [hb, ih hrest (base + n)]

/-- C5: within each generation-1 segment of n vertices (n at least 2, n a
32-bit count) the emitted triples are (0 + t, 2 + t, 1 + t) relative to the
running cursor for t in [0, n - 2), the cursor advancing by one per triple
and an extra two per segment boundary; consequently a model with one
subobject, one mesh and one segment of 4 vertices yields exactly one render
mesh with those 4 vertices and 2 triangles, the 6 indices [0,2,1,1,3,2]. -/
theorem gen1_triangulation_rule (segSizes : List Nat)
    (h : ∀ n ∈ segSizes, 2 ≤ n ∧ n < 4294967296) :
    ty1MeshIndices segSizes = specGen1Indices segSizes ∧
      ty1RenderMeshes [[[[10, 11, 12, 13]]]] = [([10, 11, 12, 13], [0, 2, 1, 1, 3, 2])] := by
  constructor
  · exact ty1MeshIndicesAux_spec segSizes h 0
  · decide

/-- Witness for C5: the triangulation rule instantiated at the single
4-vertex segment. -/
theorem gen1_triangulation_rule_witness :
    ty1MeshIndices [4] = specGen1Indices [4] ∧
      ty1RenderMeshes [[[[10, 11, 12, 13]]]] = [([10, 11, 12, 13], [0, 2, 1, 1, 3, 2])] :=
  gen1_triangulation_rule [4] (by decide)

/-! ## MDL3 header loader (loader/assets/mdl2.cpp, loadTY2MDL3)

Floats read from the header (bounds) are kept as raw 32-bit patterns; the
loader only stores them. -/

/-- MDL3 metadata record filled by loadTY2MDL3 and consumed by the MDG
decoder. -/
structure MDL3Metadata where
  ComponentCount : Nat
  TextureCount : Nat
  AnimNodeCount : Nat
  RefPointCount : Nat
  MeshCount : Nat
  StripCount : Nat
  ComponentDescriptionsOffset : Nat
  TextureListOffset : Nat
  RefPointsOffsetsOffset : Nat
  AnimNodeDataOffset : Nat
  AnimNodeListsOffset : Nat
  ObjectLookupTable : Nat
  StringTableOffset : Nat
  TextureNames : List (List Nat)
deriving Repr, DecidableEq

/-- Placeholder subobject produced by loadTY2MDL3: component bounds as nine
raw words plus the component name. -/
structure MDL3Subobject where
  boundsRaw : List Nat
  name : List Nat
deriving Repr, DecidableEq

/-- Everything loadTY2MDL3 stores on success. -/
structure MDL3LoadResult where
  meta : MDL3Metadata
  modelBoundsRaw : List Nat
  subobjects : List MDL3Subobject
deriving Repr, DecidableEq

/-- loadTY2MDL3 of mdl2.cpp: read the six fixed-offset counts, reject when
the component, texture, anim-node or ref-point count exceeds 1000, then read
the bounding box, the section offsets, the texture names (indirected through
the texture list), the string table offset (when the component descriptions
offset is positive; the member stays at its default otherwise), and one
placeholder subobject per component at 0x40-byte stride under the one
million sanity bound.  The mesh and strip counts are read but not bounds
checked. -/
def loadTY2MDL3 (buffer : List Nat) (offset : Nat) : Option MDL3LoadResult :=
  if 1000 < readU16 buffer (offset + 4) ∨ 1000 < readU16 buffer (offset + 6) ∨
      1000 < readU16 buffer (offset + 8) ∨ 1000 < readU16 buffer (offset + 10) then none
  else
    let cdo := readU16 buffer (offset + 80)
    let tlo := readU32 buffer (offset + 84)
    let texNames := (List.range (readU16 buffer (offset + 6))).map (fun ti =>
        ntsAt buffer (offset + readU32 buffer (offset + tlo + ti * 4)))
    let subs := (List.range (readU16 buffer (offset + 4))).map (fun i =>
        let co := offset + cdo + i * 64
        if co + 48 ≤ offset + 1000000 then
          { boundsRaw := [readU32 buffer co, readU32 buffer (co + 4), readU32 buffer (co + 8),
              readU32 buffer (co + 16), readU32 buffer (co + 20), readU32 buffer (co + 24),
              readU32 buffer (co + 32), readU32 buffer (co + 36), readU32 buffer (co + 40)],
            name := if 0 < readU32 buffer (co + 48) then
                ntsAt buffer (offset + readU32 buffer (co + 48))
              else [] }
        else ({ boundsRaw := [0, 0, 0, 0, 0, 0, 0, 0, 0], name := [] } : MDL3Subobject))
    some
      { meta :=
          { ComponentCount := readU16 buffer (offset + 4)
            TextureCount := readU16 buffer (offset + 6)
            AnimNodeCount := readU16 buffer (offset + 8)
            RefPointCount := readU16 buffer (offset + 10)
            MeshCount := readU16 buffer (offset + 14)
            StripCount := readU16 buffer (offset + 30)
            ComponentDescriptionsOffset := cdo
            TextureListOffset := tlo
            RefPointsOffsetsOffset := readU32 buffer (offset + 88)
            AnimNodeDataOffset := readU16 buffer (offset + 92)
            AnimNodeListsOffset := readU32 buffer (offset + 100)
            ObjectLookupTable := readU32 buffer (offset + 104)
            StringTableOffset := if 0 < cdo then readU16 buffer (offset + cdo + 52) else 0
            TextureNames := texNames }
        modelBoundsRaw := [readU32 buffer (offset + 48), readU32 buffer (offset + 52),
          readU32 buffer (offset + 56), readU32 buffer (offset + 64),
          readU32 buffer (offset + 68), readU32 buffer (offset + 72)]
        subobjects := subs }

/-- Buffer of 256 bytes, all zero except a mesh count of 1001 at offset 0xE. -/
def c6Buffer : List Nat := List.replicate 14 0 ++ [233, 3] ++ List.replicate 240 0

/-- Counterexample for C6: a header whose mesh count is 1001 (all other
counts zero) is accepted by loadTY2MDL3, so the claim that any of the six
counts above 1000 forces failure is false: only the component, texture,
anim-node and ref-point counts are validated. -/
theorem loadTY2MDL3_unchecked_meshcount :
    readU16 c6Buffer 14 = 1001 ∧ 1000 < readU16 c6Buffer 14 ∧
      (loadTY2MDL3 c6Buffer 0).isSome = true := by
  decide

/-- C6 (amended): loadTY2MDL3 returns failure whenever the component,
texture, anim-node or ref-point count exceeds 1000; the mesh and strip
counts are read but not bounds checked. -/
theorem loadTY2MDL3_count_guard (buffer : List Nat) (offset : Nat)
    (h : 1000 < readU16 buffer (offset + 4) ∨ 1000 < readU16 buffer (offset + 6) ∨
      1000 < readU16 buffer (offset + 8) ∨ 1000 < readU16 buffer (offset + 10)) :
    loadTY2MDL3 buffer offset = none := by
  unfold loadTY2MDL3
  rw [if_pos h]

/-- Buffer of 256 bytes, all zero except a component count of 1001. -/
def c6GuardBuffer : List Nat := List.replicate 4 0 ++ [233, 3] ++ List.replicate 250 0

/-- Witness for C6: the guard theorem applied to the concrete buffer whose
component count is 1001. -/
theorem loadTY2MDL3_count_guard_witness : loadTY2MDL3 c6GuardBuffer 0 = none :=
  loadTY2MDL3_count_guard c6GuardBuffer 0 (Or.inl (by decide))

/-! ## PC-format MDG decoder (loader/assets/mdg.cpp, parseMDGPC)

The decoder reads raw 32-bit float patterns; only copying and structural
equality of those patterns matter to the claims, so the float-valued
operations of the decoder (the 1 - v flip applied to raw V, the 1e-5
tolerance comparisons of positions and UVs, the non-zero-position test and
the quantized box-likeness test) are collected in a `PCFloatOps` parameter
record, and every theorem below holds for every choice of them.  The start
of the global vertex block (found by the 5-consecutive-valid-vertices float
scan in the code) is likewise a parameter `start`. -/

/-- Float-valued operations of the PC decoder, abstracted over the raw
32-bit patterns. -/
structure PCFloatOps where
  flipV : Nat → Nat
  samePos : Nat × Nat × Nat → Nat × Nat × Nat → Bool
  sameUv : Nat × Nat → Nat × Nat → Bool
  nonZeroPos : Nat × Nat × Nat → Bool
  boxLike : List (Nat × Nat × Nat) → Bool

/-- Decoded PC vertex: raw word triples for position and normal, the raw
weight word in the first skin slot, the final texcoord pair and the default
white colour (the raw pattern of 1.0f). -/
structure PCVertex where
  position : Nat × Nat × Nat
  normal : Nat × Nat × Nat
  texcoord : Nat × Nat
  skin : Nat × Nat × Nat
  colour : Nat × Nat × Nat × Nat
deriving Repr, DecidableEq, Inhabited

/-- Raw UVs of a 48-byte-stride vertex block at `off`: U at +4 unchanged, V
at +8 through the flip. -/
def pcRawUvs (ops : PCFloatOps) (buf : List Nat) (off tv : Nat) : List (Nat × Nat) :=
  (List.range tv).map (fun i =>
    (readU32 buf (off + i * 48 + 4), ops.flipV (readU32 buf (off + i * 48 + 8))))

/-- Vertices of a 48-byte-stride block before UV assignment: position at
+12, weight at +24 into the first skin slot, normal at +36, default white
colour. -/
def pcBaseVertices (buf : List Nat) (off tv : Nat) : List PCVertex :=
  (List.range tv).map (fun i =>
    { position := (readU32 buf (off + i * 48 + 12), readU32 buf (off + i * 48 + 16),
        readU32 buf (off + i * 48 + 20))
      normal := (readU32 buf (off + i * 48 + 36), readU32 buf (off + i * 48 + 40),
        readU32 buf (off + i * 48 + 44))
      texcoord := (0, 0)
      skin := (readU32 buf (off + i * 48 + 24), 0, 0)
      colour := (1065353216, 1065353216, 1065353216, 1065353216) })

/-- The UV shift statistic loop of parseMDGPC: over adjacent
duplicate-position pairs count the pairs, the zero-shift UV matches
(second vertex against first) and the +1-shift matches (second vertex UV
slot against the one ahead, only when one exists). -/
def pcShiftCounts (ops : PCFloatOps) (verts : List PCVertex) (ruv : List (Nat × Nat)) :
    Nat × Nat × Nat :=
  (List.range (verts.length - 1)).foldl
    (fun acc i =>
      if pairAt ops.samePos (verts.map PCVertex.position) i (i + 1) then
        (acc.1 + 1,
          (if pairAt ops.sameUv ruv i (i + 1) then acc.2.1 + 1 else acc.2.1),
          (if i + 2 < verts.length ∧ pairAt ops.sameUv ruv (i + 1) (i + 2) = true then
            acc.2.2 + 1
          else acc.2.2))
      else acc)
    (0, 0, 0)

/-- Final texcoord assignment of parseMDGPC: when the shift is in effect
every vertex with a successor takes the raw UV one slot ahead, the last
vertex and the no-shift case keep their own slot. -/
def pcApplyUvs (useShifted : Bool) (base : List PCVertex) (ruv : List (Nat × Nat)) :
    List PCVertex :=
  (List.range base.length).map (fun i =>
    { base.getD i default with
        texcoord := ruv.getD (if useShifted ∧ i + 1 < base.length then i + 1 else i) (0, 0) })

/-- Vertex parsing of one unique mesh at cursor `off`: decode the raw
attributes, run the shift statistics, and assign UVs with the +1 shift
exactly when at least one adjacent duplicate pair exists and the +1-shift
matches outnumber the zero-shift matches. -/
def pcParseMeshVertices (ops : PCFloatOps) (buf : List Nat) (off tv : Nat) : List PCVertex :=
  pcApplyUvs
    (decide (0 < (pcShiftCounts ops (pcBaseVertices buf off tv) (pcRawUvs ops buf off tv)).1 ∧
      (pcShiftCounts ops (pcBaseVertices buf off tv) (pcRawUvs ops buf off tv)).2.1 <
        (pcShiftCounts ops (pcBaseVertices buf off tv) (pcRawUvs ops buf off tv)).2.2))
    (pcBaseVertices buf off tv) (pcRawUvs ops buf off tv)

/-- Renderability filter of parseMDGPC: at least 3 vertices, at least 3
non-zero positions, and not box-like. -/
def pcValidForRender (ops : PCFloatOps) (verts : List PCVertex) (tv : Nat) : Bool :=
  if 3 ≤ tv ∧ 3 ≤ (verts.filter (fun v => ops.nonZeroPos v.position)).length then
    !ops.boxLike (verts.map PCVertex.position)
  else false

/-- Strip descriptor low bytes at meshRef + 0x10, read only when the whole
descriptor table is inside the buffer. -/
def pcStripCountsRaw (buf : List Nat) (size meshRef stripCount : Nat) : List Nat :=
  if 0 < stripCount ∧ meshRef + 16 + stripCount * 2 ≤ size then
    (List.range stripCount).map (fun si => readU16 buf (meshRef + 16 + si * 2) % 256)
  else []

/-- Keep the declared strip counts only when they align with the total
vertex count under one of the three accounting conventions. -/
def pcAlignedStripCounts (raw : List Nat) (tv : Nat) : List Nat :=
  if raw = [] then []
  else if raw.sum = tv ∨ stripD2 raw = tv ∨ (¬stripD2 raw = tv ∧ stripD1 raw = tv) then raw
  else []

/-- Cached parse result of one unique mesh header. -/
structure ParsedPCMesh where
  vertices : List PCVertex
  stripVertexCounts : List Nat
  validForRender : Bool
  totalVertices : Nat
  stripCount : Nat
deriving Repr, DecidableEq, Inhabited

/-- Total vertex count of a mesh header: base count at +0 plus duplicate
count at +4. -/
def pcTotalVertices (buf : List Nat) (mr : Nat) : Nat :=
  readU16 buf mr + readU16 buf (mr + 4)

/-- Parse one unique mesh header at the shared cursor, as the unique-mesh
pass of parseMDGPC does; a header with zero total vertices keeps the empty
placeholder. -/
def pcParseOne (ops : PCFloatOps) (buf : List Nat) (size cursor mr : Nat) : ParsedPCMesh :=
  if pcTotalVertices buf mr = 0 then
    { vertices := [], stripVertexCounts := [], validForRender := false,
      totalVertices := 0, stripCount := readU16 buf (mr + 6) }
  else
    { vertices := pcParseMeshVertices ops buf cursor (pcTotalVertices buf mr)
      stripVertexCounts := pcAlignedStripCounts
        (pcStripCountsRaw buf size mr (readU16 buf (mr + 6))) (pcTotalVertices buf mr)
      validForRender := pcValidForRender ops
        (pcParseMeshVertices ops buf cursor (pcTotalVertices buf mr)) (pcTotalVertices buf mr)
      totalVertices := pcTotalVertices buf mr
      stripCount := readU16 buf (mr + 6) }

/-- Pass 2 of parseMDGPC: walk the unique mesh headers in order with the
single shared vertex-block cursor, parse each once, and fail (as the whole
parse does) on a strip count above 1000 or when the vertex block would
overrun the buffer; headers with zero vertices advance the cursor by
nothing. -/
def pcParsePass (ops : PCFloatOps) (buf : List Nat) (size : Nat) :
    List Int → Nat → List (Int × ParsedPCMesh) → Option (List (Int × ParsedPCMesh) × Nat)
  | [], cursor, acc => some (acc, cursor)
  | r :: rest, cursor, acc =>
    if r < 0 ∨ (size : Int) ≤ r then pcParsePass ops buf size rest cursor acc
    else if 1000 < readU16 buf (r.toNat + 6) then none
    else if pcTotalVertices buf r.toNat = 0 then
      pcParsePass ops buf size rest cursor (acc ++ [(r, pcParseOne ops buf size cursor r.toNat)])
    else if size < cursor + pcTotalVertices buf r.toNat * 48 then none
    else
      pcParsePass ops buf size rest (cursor + pcTotalVertices buf r.toNat * 48)
        (acc ++ [(r, pcParseOne ops buf size cursor r.toNat)])

/-- Closed form of pass 2 on a successful run: each unique header in order
is parsed exactly once at the running cursor, which advances by the total
vertex count times the 48-byte stride per header. -/
def pcParsedListSpec (ops : PCFloatOps) (buf : List Nat) (size : Nat) :
    Nat → List Int → List (Int × ParsedPCMesh)
  | _, [] => []
  | cursor, r :: rest =>
    (r, pcParseOne ops buf size cursor r.toNat) ::
      pcParsedListSpec ops buf size (cursor + pcTotalVertices buf r.toNat * 48) rest

/-- readNextMesh helper of parseMDGPC: the next-chain pointer at +0xC, or 0
when the reference is non-positive or the read would overrun. -/
def readNextMesh (buf : List Nat) (size : Nat) (meshRef : Int) : Int :=
  if meshRef ≤ 0 then 0
  else if (size : Int) < meshRef + 16 then 0
  else readI32 buf (meshRef.toNat + 12)

/-- One linked mesh chain: follow next pointers from the head while the
reference is non-zero and inside the buffer.  The C++ loops have no cycle
guard, so the traversal is indexed by fuel; all statements hold for every
fuel. -/
def chainRefs (buf : List Nat) (size : Nat) : Nat → Int → List Int
  | 0, _ => []
  | fuel + 1, meshRef =>
    if meshRef = 0 then []
    else if meshRef < 0 ∨ (size : Int) ≤ meshRef then []
    else meshRef :: chainRefs buf size fuel (readNextMesh buf size meshRef)

/-- Chain head for a (texture, component) slot, read from the object lookup
table in the mdl buffer; slots beyond the one-million sanity bound are
skipped (their chain is empty). -/
def lookupRefHead (meta : MDL3Metadata) (mdlBuf : List Nat) (mdlOffset ti ci : Nat) : Int :=
  if mdlOffset + 1000000 <
      mdlOffset + meta.ObjectLookupTable + ti * 4 * meta.ComponentCount + ci * 4 + 4 then 0
  else readI32 mdlBuf (mdlOffset + meta.ObjectLookupTable + ti * 4 * meta.ComponentCount + ci * 4)

/-- Every (texture, component, meshRef) reference occurrence, in the
traversal order shared by the discovery pass and the replay pass (both
iterate textures, then components, then the chain with readNextMesh). -/
def pcAllRefs (meta : MDL3Metadata) (mdlBuf buf : List Nat) (size mdlOffset fuel : Nat) :
    List (Nat × Nat × Int) :=
  catMap (fun ti =>
      catMap (fun ci =>
          (chainRefs buf size fuel (lookupRefHead meta mdlBuf mdlOffset ti ci)).map
            (fun r => (ti, ci, r)))
        (List.range meta.ComponentCount))
    (List.range meta.TextureCount)

/-- First-seen deduplication against a seen set, as the insert-into-set
discovery pass does. -/
def dedupAux : List Int → List Int → List Int
  | _, [] => []
  | seen, r :: rest => if r ∈ seen then dedupAux seen rest else r :: dedupAux (r :: seen) rest

/-- First-seen unique order. -/
def dedupFirstSeen (l : List Int) : List Int := dedupAux [] l

/-- Pass 1 of parseMDGPC: the unique mesh headers in first-seen traversal
order. -/
def pcMeshOrder (meta : MDL3Metadata) (mdlBuf buf : List Nat) (size mdlOffset fuel : Nat) :
    List Int :=
  dedupFirstSeen ((pcAllRefs meta mdlBuf buf size mdlOffset fuel).map (fun o => o.2.2))

/-- Texture name test for collision geometry: the name starts with CM_ or
cm_. -/
def isCollisionName (name : List Nat) : Bool :=
  name.take 3 = [67, 77, 95] || name.take 3 = [99, 109, 95]

/-- Whether texture `ti` is a collision texture. -/
def pcTexIsCollision (meta : MDL3Metadata) (ti : Nat) : Bool :=
  match meta.TextureNames[ti]? with
  | some nm => isCollisionName nm
  | none => false

/-- Renderable mesh record emitted by the replay pass. -/
structure PCMeshData where
  vertices : List PCVertex
  stripVertexCounts : List Nat
  textureIndex : Nat
  componentIndex : Nat
deriving Repr, DecidableEq

/-- Replay of one reference occurrence from the cache: skip missing cache
entries, non-renderable meshes and collision textures, otherwise emit the
cached vertices and strip counts under the (texture, component) of the
occurrence.  The mesh reference tag is kept alongside for bookkeeping;
dropping it gives the meshes list of the decoder. -/
def pcEmitOcc (meta : MDL3Metadata) (pm : List (Int × ParsedPCMesh)) (occ : Nat × Nat × Int) :
    Option (Int × PCMeshData) :=
  match List.lookup occ.2.2 pm with
  | none => none
  | some parsed =>
    if parsed.validForRender = false then none
    else if pcTexIsCollision meta occ.1 then none
    else some (occ.2.2, ⟨parsed.vertices, parsed.stripVertexCounts, occ.1, occ.2.1⟩)

/-- Pass 3 of parseMDGPC with the mesh reference tag kept. -/
def pcReplayTagged (meta : MDL3Metadata) (pm : List (Int × ParsedPCMesh))
    (occs : List (Nat × Nat × Int)) : List (Int × PCMeshData) :=
  occs.filterMap (pcEmitOcc meta pm)

/-- The meshes list of the decoder: the replay output without the tag. -/
def pcMeshesOut (meta : MDL3Metadata) (pm : List (Int × ParsedPCMesh))
    (occs : List (Nat × Nat × Int)) : List PCMeshData :=
  (pcReplayTagged meta pm occs).map (fun e => e.2)

/-- Membership in catMap is membership in one image. -/
theorem mem_catMap_iff {α β : Type} (f : α → List β) (l : List α) (x : β) :
    x ∈ catMap f l ↔ ∃ a ∈ l, x ∈ f a := by
  induction l with
  | nil => simp [catMap]
  | cons b t ih =>
    simp only [catMap, List.mem_append, ih, List.mem_cons]
    constructor
    · rintro (h | ⟨a, ha, hx⟩)
      · exact ⟨b, Or.inl rfl, h⟩
      · exact ⟨a, Or.inr ha, hx⟩
    · rintro ⟨a, ha | ha, hx⟩
      · subst ha; exact Or.inl hx
      · exact Or.inr ⟨a, ha, hx⟩

/-- Membership after first-seen deduplication. -/
theorem mem_dedupAux (l : List Int) :
    ∀ seen r, r ∈ dedupAux seen l ↔ r ∈ l ∧ r ∉ seen := by
  induction l with
  | nil => intro seen r; simp [dedupAux]
  | cons a t ih =>
    intro seen r
    by_cases ha : a ∈ seen
    · rw [show dedupAux seen (a :: t) = dedupAux seen t from by simp [dedupAux, ha]]
      rw [ih seen r]
      simp only [List.mem_cons]
      constructor
      · rintro ⟨h1, h2⟩; exact ⟨Or.inr h1, h2⟩
      · rintro ⟨h1 | h1, h2⟩
        · subst h1; exact absurd ha h2
        · exact ⟨h1, h2⟩
    · rw [show dedupAux seen (a :: t) = a :: dedupAux (a :: seen) t from by
        simp [dedupAux, ha]]
      simp only [List.mem_cons, ih (a :: seen) r]
      constructor
      · rintro (h | ⟨h1, h2⟩)
        · subst h; exact ⟨Or.inl rfl, ha⟩
        · push_neg at h2
          exact ⟨Or.inr h1, h2.2⟩
      · rintro ⟨h1 | h1, h2⟩
        · subst h1; exact Or.inl rfl
        · by_cases hra : r = a
          · exact Or.inl hra
          · exact Or.inr ⟨h1, by simp [List.mem_cons, hra, h2]⟩

/-- First-seen deduplication yields a list without duplicates. -/
theorem nodup_dedupAux (l : List Int) : ∀ seen, (dedupAux seen l).Nodup := by
  induction l with
  | nil => intro seen; simp [dedupAux]
  | cons a t ih =>
    intro seen
    by_cases ha : a ∈ seen
    · simpa [dedupAux, ha] using ih seen
    · simp only [dedupAux, if_neg ha]
      refine List.nodup_cons.mpr ⟨?_, ih (a :: seen)⟩
      intro hmem
      have := (mem_dedupAux t (a :: seen) a).mp hmem
      simp at this

/-- Every reference emitted by a chain traversal is positive and inside the
buffer. -/
theorem chainRefs_bounds (buf : List Nat) (size : Nat) :
    ∀ fuel r, ∀ x ∈ chainRefs buf size fuel r, 0 < x ∧ x < (size : Int) := by
  intro fuel
  induction fuel with
  | zero => intro r x hx; simp [chainRefs] at hx
  | succ f ih =>
    intro r x hx
    simp only [chainRefs] at hx
    by_cases h0 : r = 0
    · rw [if_pos h0] at hx; simp at hx
    · rw [if_neg h0] at hx
      by_cases hb : r < 0 ∨ (size : Int) ≤ r
      · rw [if_pos hb] at hx; simp at hx
      · rw [if_neg hb] at hx
        rcases List.mem_cons.mp hx with h | h
        · subst h
          push_neg at hb
          exact ⟨by omega, hb.2⟩
        · exact ih _ x h

/-- Every reference occurrence of the lookup-table traversal is positive and
inside the buffer. -/
theorem pcAllRefs_bounds (meta : MDL3Metadata) (mdlBuf buf : List Nat)
    (size mdlOffset fuel : Nat) :
    ∀ o ∈ pcAllRefs meta mdlBuf buf size mdlOffset fuel,
      0 < o.2.2 ∧ o.2.2 < (size : Int) := by
  intro o ho
  unfold pcAllRefs at ho
  rcases (mem_catMap_iff _ _ _).mp ho with ⟨ti, _, hti⟩
  rcases (mem_catMap_iff _ _ _).mp hti with ⟨ci, _, hci⟩
  rcases List.mem_map.mp hci with ⟨r, hr, rfl⟩
  exact chainRefs_bounds buf size fuel _ r hr

/-- The unique-order list inherits the traversal bounds. -/
theorem pcMeshOrder_bounds (meta : MDL3Metadata) (mdlBuf buf : List Nat)
    (size mdlOffset fuel : Nat) :
    ∀ r ∈ pcMeshOrder meta mdlBuf buf size mdlOffset fuel, 0 < r ∧ r < (size : Int) := by
  intro r hr
  unfold pcMeshOrder dedupFirstSeen at hr
  obtain ⟨hl, -⟩ := (mem_dedupAux _ _ _).mp hr
  rcases List.mem_map.mp hl with ⟨o, ho, rfl⟩
  exact pcAllRefs_bounds meta mdlBuf buf size mdlOffset fuel o ho

/-- A successful pass 2 run equals its closed form: the accumulated list
appends one parsed entry per unique header, parsed at the running cursor,
and the final cursor is the start plus 48 bytes per total vertex. -/
theorem pcParsePass_eq_spec (ops : PCFloatOps) (buf : List Nat) (size : Nat) :
    ∀ (l : List Int) (cursor : Nat) (acc pm : List (Int × ParsedPCMesh)) (fin : Nat),
      (∀ r ∈ l, 0 < r ∧ r < (size : Int)) →
      pcParsePass ops buf size l cursor acc = some (pm, fin) →
      pm = acc ++ pcParsedListSpec ops buf size cursor l ∧
        fin = cursor + 48 * (l.map (fun r => pcTotalVertices buf r.toNat)).sum := by
  intro l
  induction l with
  | nil =>
    intro cursor acc pm fin hb hp
    simp only [pcParsePass, Option.some.injEq, Prod.mk.injEq] at hp
    obtain ⟨rfl, rfl⟩ := hp
    simp [pcParsedListSpec]
  | cons r rest ih =>
    intro cursor acc pm fin hb hp
    have hr := hb r (by simp)
    have hrest : ∀ x ∈ rest, 0 < x ∧ x < (size : Int) := fun x hx => hb x (by simp [hx])
    simp only [pcParsePass] at hp
    rw [if_neg (by omega)] at hp
    by_cases hsc : 1000 < readU16 buf (r.toNat + 6)
    · rw [if_pos hsc] at hp
      exact absurd hp (by simp)
    · rw [if_neg hsc] at hp
      by_cases htv : pcTotalVertices buf r.toNat = 0
      · rw [if_pos htv] at hp
        obtain ⟨h1, h2⟩ := ih _ _ _ _ hrest hp
        refine ⟨?_, ?_⟩
        · rw [h1]
          simp [pcParsedListSpec, htv]
        · rw [h2]
          simp [htv]
      · rw [if_neg htv] at hp
        by_cases hsz : size < cursor + pcTotalVertices buf r.toNat * 48
        · rw [if_pos hsz] at hp
          exact absurd hp (by simp)
        · rw [if_neg hsz] at hp
          obtain ⟨h1, h2⟩ := ih _ _ _ _ hrest hp
          refine ⟨?_, ?_⟩
          · rw [h1]
            simp [pcParsedListSpec]
          · rw [h2]
            simp only [List.map_cons, List.sum_cons]
            omega

/-- Every replay output entry carries the vertices of the unique cache entry
of its mesh reference. -/
theorem pcReplayTagged_vertices (meta : MDL3Metadata) (pm : List (Int × ParsedPCMesh))
    (occs : List (Nat × Nat × Int)) :
    ∀ e ∈ pcReplayTagged meta pm occs,
      ∃ p, List.lookup e.1 pm = some p ∧ e.2.vertices = p.vertices := by
  intro e he
  rcases List.mem_filterMap.mp he with ⟨occ, _, hocc⟩
  unfold pcEmitOcc at hocc
  cases hl : List.lookup occ.2.2 pm with
  | none => rw [hl] at hocc; simp at hocc
  | some parsed =>
    rw [hl] at hocc
    dsimp only at hocc
    by_cases hv : parsed.validForRender = false
    · rw [if_pos hv] at hocc; cases hocc
    · rw [if_neg hv] at hocc
      by_cases hc : pcTexIsCollision meta occ.1 = true
      · rw [if_pos hc] at hocc; cases hocc
      · rw [if_neg hc] at hocc
        obtain rfl := Option.some.inj hocc
        exact ⟨parsed, hl, rfl⟩

/-- Two replay outputs for the same mesh reference carry identical vertex
arrays, because both read the single cache entry of that reference. -/
theorem pcReplay_same_ref (meta : MDL3Metadata) (pm : List (Int × ParsedPCMesh))
    (occs : List (Nat × Nat × Int)) :
    ∀ e1 ∈ pcReplayTagged meta pm occs, ∀ e2 ∈ pcReplayTagged meta pm occs,
      e1.1 = e2.1 → e1.2.vertices = e2.2.vertices := by
  intro e1 h1 e2 h2 h12
  obtain ⟨p1, hl1, hv1⟩ := pcReplayTagged_vertices meta pm occs e1 h1
  obtain ⟨p2, hl2, hv2⟩ := pcReplayTagged_vertices meta pm occs e2 h2
  rw [h12] at hl1
  rw [hl1] at hl2
  obtain rfl := Option.some.inj hl2
  rw [hv1, hv2]

/-- C3: in the PC MDG decoder, the unique mesh headers are the first-seen
deduplication of the lookup-table traversal (no duplicates, same members);
on a successful unique-mesh pass the cache equals the closed form that
parses each unique header exactly once while the single shared cursor
advances by (baseVertexCount + duplicateVertexCount) * 48 bytes per unique
header, the final cursor being start + 48 * total; and the replay pass
serves every (texture, component) reference from that cache, so any two
emitted meshes for the same header have identical vertex arrays. -/
theorem pc_unique_mesh_parse_and_replay (ops : PCFloatOps) (meta : MDL3Metadata)
    (mdlBuf buf : List Nat) (size mdlOffset fuel start : Nat)
    (pm : List (Int × ParsedPCMesh)) (fin : Nat)
    (hp : pcParsePass ops buf size (pcMeshOrder meta mdlBuf buf size mdlOffset fuel) start []
        = some (pm, fin)) :
    (pcMeshOrder meta mdlBuf buf size mdlOffset fuel).Nodup ∧
      (∀ r : Int, r ∈ pcMeshOrder meta mdlBuf buf size mdlOffset fuel ↔
        ∃ o ∈ pcAllRefs meta mdlBuf buf size mdlOffset fuel, o.2.2 = r) ∧
      pm = pcParsedListSpec ops buf size start
          (pcMeshOrder meta mdlBuf buf size mdlOffset fuel) ∧
      fin = start + 48 * ((pcMeshOrder meta mdlBuf buf size mdlOffset fuel).map
          (fun r => pcTotalVertices buf r.toNat)).sum ∧
      (∀ e1 ∈ pcReplayTagged meta pm (pcAllRefs meta mdlBuf buf size mdlOffset fuel),
        ∀ e2 ∈ pcReplayTagged meta pm (pcAllRefs meta mdlBuf buf size mdlOffset fuel),
          e1.1 = e2.1 → e1.2.vertices = e2.2.vertices) := by
  obtain ⟨h1, h2⟩ := pcParsePass_eq_spec ops buf size _ start [] pm fin
    (pcMeshOrder_bounds meta mdlBuf buf size mdlOffset fuel) hp
  refine ⟨nodup_dedupAux _ [], ?_, by simpa using h1, h2, pcReplay_same_ref meta pm _⟩
  intro r
  unfold pcMeshOrder dedupFirstSeen
  rw [mem_dedupAux]
  simp [List.mem_map]

/-- Metadata of the C3 witness: two textures sharing one component, so the
lookup table holds two references. -/
def c3Meta : MDL3Metadata :=
  { ComponentCount := 1, TextureCount := 2, AnimNodeCount := 0, RefPointCount := 0,
    MeshCount := 0, StripCount := 0, ComponentDescriptionsOffset := 0, TextureListOffset := 0,
    RefPointsOffsetsOffset := 0, AnimNodeDataOffset := 0, AnimNodeListsOffset := 0,
    ObjectLookupTable := 0, StringTableOffset := 0, TextureNames := [] }

/-- Lookup table of the C3 witness: both slots point at the mesh header at
offset 16. -/
def c3MdlBuf : List Nat := [16, 0, 0, 0, 16, 0, 0, 0]

/-- Geometry buffer of the C3 witness: one mesh header at offset 16 with a
base vertex count of 3 and a zero next pointer, 208 bytes total. -/
def c3Buf : List Nat := List.replicate 16 0 ++ [3] ++ List.replicate 191 0

/-- Concrete instantiation of the abstract float operations: bit-level
equality for the tolerance tests, identity flip, everything non-zero and
nothing box-like. -/
def bitEqOps : PCFloatOps :=
  { flipV := id
    samePos := fun a b => decide (a = b)
    sameUv := fun a b => decide (a = b)
    nonZeroPos := fun _ => true
    boxLike := fun _ => false }

/-- Witness for C3: on the concrete doubly-referenced header the unique
order is exactly [16], the pass succeeds, and the final cursor advanced by
3 * 48 bytes for the single unique header. -/
theorem pc_unique_mesh_parse_and_replay_witness :
    pcMeshOrder c3Meta c3MdlBuf c3Buf 208 0 4 = [16] ∧
      (pcMeshOrder c3Meta c3MdlBuf c3Buf 208 0 4).Nodup ∧
      ∃ pm fin,
        pcParsePass bitEqOps c3Buf 208 (pcMeshOrder c3Meta c3MdlBuf c3Buf 208 0 4) 64 []
            = some (pm, fin) ∧
          fin = 64 + 48 * ((pcMeshOrder c3Meta c3MdlBuf c3Buf 208 0 4).map
            (fun r => pcTotalVertices c3Buf r.toNat)).sum := by
  obtain ⟨pm, fin, hp⟩ :
      ∃ pm fin,
        pcParsePass bitEqOps c3Buf 208 (pcMeshOrder c3Meta c3MdlBuf c3Buf 208 0 4) 64 []
          = some (pm, fin) := ⟨_, _, rfl⟩
  have h := pc_unique_mesh_parse_and_replay bitEqOps c3Meta c3MdlBuf c3Buf 208 0 4 64 pm fin hp
  exact ⟨by decide, h.1, pm, fin, hp, h.2.2.2.1⟩

/-- The base vertex list has one vertex per slot. -/
theorem pcBaseVertices_length (buf : List Nat) (off tv : Nat) :
    (pcBaseVertices buf off tv).length = tv := by
  simp [pcBaseVertices]

/-- The raw UV list has one pair per slot. -/
theorem pcRawUvs_length (ops : PCFloatOps) (buf : List Nat) (off tv : Nat) :
    (pcRawUvs ops buf off tv).length = tv := by
  simp [pcRawUvs]

/-- The texcoord of slot i after UV assignment is the raw UV at the shifted
slot. -/
theorem pcApplyUvs_texcoord (useShifted : Bool) (base : List PCVertex)
    (ruv : List (Nat × Nat)) (i : Nat) (hi : i < base.length) :
    ((pcApplyUvs useShifted base ruv)[i]?).map PCVertex.texcoord =
      some (ruv.getD (if useShifted ∧ i + 1 < base.length then i + 1 else i) (0, 0)) := by
  unfold pcApplyUvs
  rw [List.getElem?_map, List.getElem?_range hi]
  simp

/-- C8: for every parsed PC mesh, when at least one adjacent
duplicate-position pair exists and more pairs match the UV one slot ahead
than at zero shift, the whole mesh takes the +1 shift: every vertex with a
successor gets the raw decoded UV (U unchanged, V flipped at decode time)
of the next slot; otherwise every vertex keeps its own raw UV. -/
theorem pc_uv_shift_heuristic (ops : PCFloatOps) (buf : List Nat) (off tv : Nat) :
    (0 < (pcShiftCounts ops (pcBaseVertices buf off tv) (pcRawUvs ops buf off tv)).1 ∧
        (pcShiftCounts ops (pcBaseVertices buf off tv) (pcRawUvs ops buf off tv)).2.1 <
          (pcShiftCounts ops (pcBaseVertices buf off tv) (pcRawUvs ops buf off tv)).2.2 →
      ∀ i, i + 1 < tv →
        ((pcParseMeshVertices ops buf off tv)[i]?).map PCVertex.texcoord =
          (pcRawUvs ops buf off tv)[i + 1]?) ∧
      (¬(0 < (pcShiftCounts ops (pcBaseVertices buf off tv) (pcRawUvs ops buf off tv)).1 ∧
          (pcShiftCounts ops (pcBaseVertices buf off tv) (pcRawUvs ops buf off tv)).2.1 <
            (pcShiftCounts ops (pcBaseVertices buf off tv) (pcRawUvs ops buf off tv)).2.2) →
        ∀ i, i < tv →
          ((pcParseMeshVertices ops buf off tv)[i]?).map PCVertex.texcoord =
            (pcRawUvs ops buf off tv)[i]?) := by
  constructor
  · intro hc i hi
    unfold pcParseMeshVertices
    rw [pcApplyUvs_texcoord _ _ _ i (by rw [pcBaseVertices_length]; omega)]
    rw [if_pos ⟨decide_eq_true hc, by rw [pcBaseVertices_length]; omega⟩]
    have hlen : i + 1 < (pcRawUvs ops buf off tv).length := by rw [pcRawUvs_length]; omega
    rw [List.getD_eq_getElem?_getD, List.getElem?_eq_getElem hlen]
    simp
  · intro hc i hi
    unfold pcParseMeshVertices
    rw [pcApplyUvs_texcoord _ _ _ i (by rw [pcBaseVertices_length]; omega)]
    rw [if_neg (fun h => hc (of_decide_eq_true h.1))]
    have hlen : i < (pcRawUvs ops buf off tv).length := by rw [pcRawUvs_length]; omega
    rw [List.getD_eq_getElem?_getD, List.getElem?_eq_getElem hlen]
    simp

/-- Buffer of the C8 witness: three 48-byte vertices; the first two share
the zero position, the third differs; the raw U words are 7, 9, 9 so the
duplicate pair matches one slot ahead but not at zero shift. -/
def c8Buf : List Nat :=
  List.replicate 4 0 ++ [7] ++ List.replicate 47 0 ++ [9] ++ List.replicate 47 0 ++ [9] ++
    List.replicate 7 0 ++ [1] ++ List.replicate 35 0

/-- Witness for C8: on the concrete shifted block the decoder selects the +1
shift and the first texcoord equals the second raw UV, the pair (9, 0). -/
theorem pc_uv_shift_heuristic_witness :
    ((pcParseMeshVertices bitEqOps c8Buf 0 3)[0]?).map PCVertex.texcoord =
        (pcRawUvs bitEqOps c8Buf 0 3)[1]? ∧
      (pcRawUvs bitEqOps c8Buf 0 3)[1]? = some (9, 0) :=
  ⟨(pc_uv_shift_heuristic bitEqOps c8Buf 0 3).1 (by decide) 0 (by decide), by decide⟩
